import Mathlib

/-!
Shallow embedding of the create_EKG admin console (src/api) in Lean 4,
with theorems settling the frozen specification claims.

Modelling conventions:
* Python strings are Lean `String` (a sequence of unicode code points, as in
  Python); character-level operations are defined through `String.data`.
* Python `bytes` are `List (Fin 256)`.
* A raised `HTTPException(status_code, detail)` is an `Except.error` carrying
  an `HError`; a function that can raise returns `Except HError _`.
* Remote services (the OpenAI vector-store API, the file store) are oracles:
  records of functions giving the outcome of each remote call.
* The PBKDF2 key-derivation and the base64 codec are external library calls
  (hashlib / base64); they are parameters of the credential functions, with
  their contracts (fixed 32-byte output, decode inverts encode) taken as
  hypotheses where a theorem needs them.
-/

/-- An HTTPException value: status code and detail message. -/
structure HError where
  status : Nat
  detail : String
deriving DecidableEq, Repr

/-- Python bytes: a list of byte values. -/
abbrev Byte := Fin 256

abbrev Bytes := List Byte

/-- Truthiness of an optional Python string: `None` and the empty string are
falsy. Returns the string when truthy. -/
def strTruthy (s : Option String) : Option String :=
  match s with
  | none => none
  | some t => if t = "" then none else some t

/-- Python str.startswith, on code points. -/
def pyStartswith (s pre : String) : Bool :=
  decide (s.data.take pre.data.length = pre.data)

/-- Drop the first n code points of a string (Python slicing s[n:]). -/
def pyDropChars (s : String) (n : Nat) : String :=
  ⟨s.data.drop n⟩

/-- Python str.lower restricted to ASCII case mapping. -/
def lowerStr (s : String) : String :=
  ⟨s.data.map Char.toLower⟩

/-! ## src/api/security.py -/

/-- secrets.compare_digest on byte strings: equality (length mismatch gives
false); the constant-time aspect is a timing property outside the model. -/
def compare_digest (a b : Bytes) : Bool :=
  decide (a = b)

/-- hash_password (security.py line 18). `kdf` stands for the external
hashlib.pbkdf2_hmac("sha256", password, salt, 390000); `b64encode` for the
external base64 encoder; `salt` for the 16 fresh bytes from
secrets.token_bytes(16). -/
def hash_password (kdf : String → Bytes → Bytes) (b64encode : Bytes → String)
    (salt : Bytes) (password : String) : String :=
  "pbkdf2$" ++ b64encode (salt ++ kdf password salt)

/-- _split_hash (security.py line 26). `b64decode` stands for the external
base64 decoder, `none` meaning it raised. Since the "pbkdf2$" prefix check
passed, the first "$" sits at index 6, so split("$", 1)[1] is drop 7. -/
def _split_hash (b64decode : String → Option Bytes) (hashed : String) :
    Option (Bytes × Bytes) :=
  if hashed = "" then none
  else if ¬ pyStartswith hashed "pbkdf2$" then none
  else
    match b64decode (pyDropChars hashed 7) with
    | none => none
    | some raw => some (raw.take 16, raw.drop 16)

/-- verify_password (security.py line 36). -/
def verify_password (kdf : String → Bytes → Bytes)
    (b64decode : String → Option Bytes) (password : String)
    (hashed : Option String) : Bool :=
  match _split_hash b64decode (hashed.getD "") with
  | none => false
  | some (salt, digest) => compare_digest (kdf password salt) digest

/-- validate_csrf_token (security.py line 63). -/
def validate_csrf_token (session_token form_token : Option String) :
    Except HError Unit :=
  if strTruthy session_token = none ∨ strTruthy form_token = none then
    Except.error ⟨400, "Missing CSRF token"⟩
  else if ¬ (session_token.getD "" = form_token.getD "") then
    Except.error ⟨400, "Invalid CSRF token"⟩
  else Except.ok ()

/-! ## src/api/session.py -/

/-- The per-visitor session store, restricted to the keys this code uses. -/
structure Session where
  admin_authenticated : Bool := false
  csrf_token : Option String := none
  flash : Option (String × String) := none
deriving DecidableEq, Repr

/-- get_csrf_token (session.py line 36). `fresh` stands for the value
generate_csrf_token would produce if called. Returns the token and the
updated session. -/
def get_csrf_token (fresh : String) (s : Session) : String × Session :=
  let token := s.csrf_token.getD ""
  if token = "" then (fresh, { s with csrf_token := some fresh })
  else (token, s)

/-! Toy external-library instantiations, used by witnesses to show the
hypotheses on the abstract kdf / base64 parameters are satisfiable. -/

/-- A stand-in key-derivation function with the pbkdf2_hmac-sha256 output
length (32 bytes). -/
def kdfW (password : String) (salt : Bytes) : Bytes :=
  List.replicate 30 (0 : Byte) ++
    [(⟨salt.length % 256, Nat.mod_lt _ (by norm_num)⟩ : Byte),
     (⟨password.length % 256, Nat.mod_lt _ (by norm_num)⟩ : Byte)]

/-- A stand-in byte-to-text encoder (one char per byte). -/
def b64eW (l : Bytes) : String :=
  ⟨l.map (fun b => Char.ofNat b.val)⟩

/-- A stand-in decoder, the left inverse of `b64eW`. -/
def b64dW (s : String) : Option Bytes :=
  some (s.data.map (fun c => (⟨c.toNat % 256, Nat.mod_lt _ (by norm_num)⟩ : Byte)))

/-! ## src/api/vector_store.py : validation -/

def MAX_FILE_BYTES : Nat := 100 * 1024 * 1024

def SUPPORTED_EXTENSIONS : List String := [".pdf", ".txt", ".md", ".docx", ".csv", ".json"]

def CONVERTIBLE_EXTENSIONS : List String := [".xlsx"]

/-- The final path component (pathlib PurePath.name). -/
def pathNameOf (s : String) : List Char :=
  (s.data.reverse.takeWhile (fun c => c ≠ '/')).reverse

/-- pathlib Path.suffix: the extension of the final component, empty when the
last dot is leading, trailing or absent. -/
def pathSuffix (s : String) : String :=
  let name := pathNameOf s
  let t := name.reverse.takeWhile (fun c => c ≠ '.')
  if t.length = name.length ∨ t.length = 0 ∨ t.length = name.length - 1 then ""
  else ⟨'.' :: t.reverse⟩

/-- pathlib Path.stem: the final component without its suffix. -/
def pathStem (s : String) : String :=
  let name := pathNameOf s
  let t := name.reverse.takeWhile (fun c => c ≠ '.')
  if t.length = name.length ∨ t.length = 0 ∨ t.length = name.length - 1 then ⟨name⟩
  else ⟨name.take (name.length - t.length - 1)⟩

/-- validate_upload (vector_store.py line 40); the UploadFile.filename, with
the empty string standing for both None and "". -/
def validate_upload (filename : String) : Except HError Unit :=
  if filename = "" then Except.error ⟨400, "Filename cannot be blank."⟩
  else
    let extension := lowerStr (pathSuffix filename)
    if ¬ (extension ∈ SUPPORTED_EXTENSIONS ∨ extension ∈ CONVERTIBLE_EXTENSIONS) then
      Except.error ⟨400, "Unsupported file type: " ++ extension⟩
    else Except.ok ()

/-- ensure_file_size (vector_store.py line 54). -/
def ensure_file_size (content : Bytes) : Except HError Unit :=
  if content = [] then Except.error ⟨400, "Uploaded file is empty."⟩
  else if MAX_FILE_BYTES < content.length then
    Except.error ⟨400, "Uploaded file exceeds the 100 MB limit."⟩
  else Except.ok ()

/-! ## src/api/vector_store.py : the remote-service oracle and ingest_file -/

/-- Metadata of a file-store record as used by _find_existing_file_id
(file_details.filename is accessed directly). -/
structure FileMeta where
  filename : String
deriving DecidableEq, Repr

/-- Outcome of vector_stores.files.create_and_poll under asyncio.wait_for:
normal return carrying the optional status attribute, the timeout, or an
exception. -/
inductive AttachOutcome
  | ok (st : Option String)
  | timeout
  | failure (e : HError)
deriving DecidableEq, Repr

/-- One invocation of ingest_file performs remote calls whose outcomes this
oracle fixes. `none` / `Except.error` model the call raising. -/
structure Oracle where
  apiKeyConfigured : Bool
  retrieveStoreOk : String → Bool
  createStore : Except HError String
  listFiles : String → Except HError (List String)
  retrieveFile : String → Option FileMeta
  convert : Except HError Bytes
  createFile : Except HError String
  attach : AttachOutcome
  retrieveStoreInfo : String → Except HError (Option Nat)

/-- The remote operations a run can perform, recorded as a trace. -/
inductive RemoteOp
  | retrieveStore (id : String)
  | createStore
  | listFiles (storeId : String)
  | retrieveFile (fileId : String)
  | createFile (filename : String)
  | attachFile (storeId fileId : String)
deriving DecidableEq, Repr

/-- The temporary staging files ingest_file can create on disk. -/
inductive Temp
  | stagedExcel
  | convertedTxt
  | uploadTemp
deriving DecidableEq, Repr

/-- The default-handling tail of _ensure_vector_store (vector_store.py lines
76-90): try the configured default store when truthy, falling back to
creating a new store. -/
def ensureDefaultTier (o : Oracle) (defaultId : Option String) :
    Except HError String × List RemoteOp :=
  match strTruthy defaultId with
  | some d =>
      if o.retrieveStoreOk d then (Except.ok d, [RemoteOp.retrieveStore d])
      else (o.createStore, [RemoteOp.retrieveStore d, RemoteOp.createStore])
  | none => (o.createStore, [RemoteOp.createStore])

/-- _ensure_vector_store (vector_store.py line 64), with its trace of remote
calls. `defaultId` is settings.openai_vector_store_id. -/
def _ensure_vector_store (o : Oracle) (defaultId vsid : Option String) :
    Except HError String × List RemoteOp :=
  match strTruthy vsid with
  | some id =>
      if o.retrieveStoreOk id then (Except.ok id, [RemoteOp.retrieveStore id])
      else ((ensureDefaultTier o defaultId).1,
            RemoteOp.retrieveStore id :: (ensureDefaultTier o defaultId).2)
  | none => ensureDefaultTier o defaultId

/-- The scan inside _find_existing_file_id: first listed file whose metadata
retrieval succeeds and whose stored filename equals the target; entries whose
retrieval fails are skipped. -/
def findAux (o : Oracle) (filename : String) : List String → Option String × List RemoteOp
  | [] => (none, [])
  | id :: rest =>
    match o.retrieveFile id with
    | none =>
        let r := findAux o filename rest
        (r.1, RemoteOp.retrieveFile id :: r.2)
    | some m =>
        if m.filename = filename then (some id, [RemoteOp.retrieveFile id])
        else
          let r := findAux o filename rest
          (r.1, RemoteOp.retrieveFile id :: r.2)

/-- _find_existing_file_id (vector_store.py line 230), with its trace. -/
def _find_existing_file_id (o : Oracle) (storeId filename : String) :
    Except HError (Option String) × List RemoteOp :=
  match o.listFiles storeId with
  | Except.error e => (Except.error e, [RemoteOp.listFiles storeId])
  | Except.ok ids =>
      let r := findAux o filename ids
      (Except.ok r.1, RemoteOp.listFiles storeId :: r.2)

/-- The dict returned by a successful ingest_file. -/
structure IngestResult where
  vector_store_id : String
  file_id : String
  file_count : Nat
  status : String
  original_filename : String
  uploaded_filename : String
  converted : Bool
deriving DecidableEq, Repr

deriving instance DecidableEq for Except

/-- Observable outcome of one ingest_file invocation: the returned value or
raised error, which staging files were created, which were deleted before
control returned, and the remote calls made. -/
structure IngestOut where
  result : Except HError IngestResult
  created : List Temp
  cleaned : List Temp
  calls : List RemoteOp
deriving DecidableEq, Repr

/-- ingest_file from the client assertion onwards (vector_store.py lines
419-500): the part after validation and the conversion branch. `temps` are
the staging files already on disk. -/
def ingestAfterConvert (o : Oracle) (defaultId vsid : Option String)
    (original uploadName : String) (_content : Bytes) (temps : List Temp)
    (conv : Bool) : IngestOut :=
  if ¬ o.apiKeyConfigured then
    ⟨Except.error ⟨503, "OpenAI API key is not configured."⟩, temps, [], []⟩
  else
    match _ensure_vector_store o defaultId vsid with
    | (Except.error e, tr) => ⟨Except.error e, temps, [], tr⟩
    | (Except.ok storeId, tr) =>
      match _find_existing_file_id o storeId uploadName with
      | (Except.error e, tr2) => ⟨Except.error e, temps, [], tr ++ tr2⟩
      | (Except.ok (some _), tr2) =>
          ⟨Except.error ⟨409, "File " ++ uploadName ++ " already exists in the vector store. Please delete the existing file first if you want to replace it."⟩,
           temps, [], tr ++ tr2⟩
      | (Except.ok none, tr2) =>
        let temps2 := temps ++ [Temp.uploadTemp]
        match o.createFile with
        | Except.error e =>
            ⟨Except.error e, temps2, temps2, tr ++ tr2 ++ [RemoteOp.createFile uploadName]⟩
        | Except.ok fileId =>
          let tr3 := tr ++ tr2 ++ [RemoteOp.createFile uploadName, RemoteOp.attachFile storeId fileId]
          match o.attach with
          | AttachOutcome.timeout =>
              ⟨Except.error ⟨504, "File upload timed out. The file may still be processing. Please check the vector store status."⟩,
               temps2, temps2, tr3⟩
          | AttachOutcome.failure e => ⟨Except.error e, temps2, temps2, tr3⟩
          | AttachOutcome.ok vsStatus =>
            match o.retrieveStoreInfo storeId with
            | Except.error e =>
                ⟨Except.error e, temps2, temps2, tr3 ++ [RemoteOp.retrieveStore storeId]⟩
            | Except.ok cnt =>
                ⟨Except.ok { vector_store_id := storeId, file_id := fileId,
                             file_count := cnt.getD 1, status := vsStatus.getD "completed",
                             original_filename := original, uploaded_filename := uploadName,
                             converted := conv },
                 temps2, temps2, tr3 ++ [RemoteOp.retrieveStore storeId]⟩

/-- ingest_file (vector_store.py line 376). The conversion branch stages the
spreadsheet to a temp file, runs convert_excel_to_txt (the oracle's convert),
unlinks the staged files and re-raises on conversion failure, and otherwise
uploads under the converted name. -/
def ingest_file (o : Oracle) (defaultId : Option String) (filename : String)
    (content : Bytes) (vsid : Option String) : IngestOut :=
  match validate_upload filename with
  | Except.error e => ⟨Except.error e, [], [], []⟩
  | Except.ok _ =>
  match ensure_file_size content with
  | Except.error e => ⟨Except.error e, [], [], []⟩
  | Except.ok _ =>
    let extension := lowerStr (pathSuffix filename)
    if extension ∈ CONVERTIBLE_EXTENSIONS then
      match o.convert with
      | Except.error e => ⟨Except.error e, [Temp.stagedExcel], [Temp.stagedExcel], []⟩
      | Except.ok converted =>
          ingestAfterConvert o defaultId vsid filename (pathStem filename ++ ".txt")
            converted [Temp.stagedExcel, Temp.convertedTxt] true
    else
      ingestAfterConvert o defaultId vsid filename filename content [] false

/-! ## src/api/vector_store.py : list_vector_store_files (line 144) -/

/-- A vector-store file object as returned by vector_stores.files.list:
id plus optional status / filename attributes (getattr with default). -/
structure VSFileEntry where
  id : String
  filename : Option String
  status : Option String
deriving DecidableEq, Repr

/-- A file-store record as read defensively by list_vector_store_files:
optional attributes, with `none` standing for an absent attribute. -/
structure FileDetails where
  filename : Option String
  status : Option String
  created_at : Option Nat
  bytes : Nat
deriving DecidableEq, Repr

/-- One page returned by vector_stores.files.list, with the optional
has_more attribute. -/
structure Page where
  data : List VSFileEntry
  has_more : Option Bool
deriving DecidableEq, Repr

/-- Oracle for the listing: the page returned for each after-cursor, and the
per-file metadata lookup (`none` meaning files.retrieve raised). -/
structure ListOracle where
  page : Option String → Page
  retrieve : String → Option FileDetails

/-- One element of the returned listing. -/
structure OutFile where
  id : String
  filename : String
  status : String
  created_at : Option Nat
  bytes : Nat
deriving DecidableEq, Repr

/-- The body of the per-entry loop (vector_store.py lines 169-203): skip the
entry when its truthy status lowers to deleted/not_found, skip it when the
metadata lookup raises, otherwise build the output record with the truthy-or
fallbacks of the source. -/
def processEntry (retrieve : String → Option FileDetails) (e : VSFileEntry) :
    Option OutFile :=
  match strTruthy e.status with
  | some s =>
      if lowerStr s = "deleted" ∨ lowerStr s = "not_found" then none
      else
        match retrieve e.id with
        | none => none
        | some d =>
            some { id := e.id,
                   filename := ((strTruthy e.filename).or (strTruthy d.filename)).getD e.id,
                   status := s, created_at := d.created_at, bytes := d.bytes }
  | none =>
      match retrieve e.id with
      | none => none
      | some d =>
          some { id := e.id,
                 filename := ((strTruthy e.filename).or (strTruthy d.filename)).getD e.id,
                 status := d.status.getD "unknown",
                 created_at := d.created_at, bytes := d.bytes }

/-- The pagination loop (vector_store.py lines 156-218): stop on an empty
page, process the entries of the page, then follow the cursor (last id of the
page) while has_more — defaulting to a full-page check when the attribute is
absent. `fuel` bounds the number of pages; a run that exhausts it keeps what
was collected (the Python loop would still be querying pages). -/
def listLoop (o : ListOracle) : Nat → Option String → List OutFile → List OutFile
  | 0, _, acc => acc
  | Nat.succ fuel, after, acc =>
    let resp := o.page after
    match resp.data with
    | [] => acc
    | e :: es =>
      let acc2 := acc ++ (e :: es).filterMap (processEntry o.retrieve)
      let hm := resp.has_more.getD (decide (100 ≤ (e :: es).length))
      if hm then
        listLoop o fuel (some ((e :: es).getLast (List.cons_ne_nil e es)).id) acc2
      else acc2

/-- list_vector_store_files (vector_store.py line 144): collect then return
sorted ascending by filename (Python sorted with a string key). -/
def list_vector_store_files (o : ListOracle) (fuel : Nat) : List OutFile :=
  (listLoop o fuel none []).mergeSort (fun a b => decide (a.filename ≤ b.filename))

/-! ## src/api/vector_store.py : delete_vector_store_files (line 263) -/

/-- Oracle for deletion: whether vector_stores.files.delete and files.delete
succeed for a given file id. -/
structure DeleteOracle where
  storeDeleteOk : String → Bool
  fileDeleteOk : String → Bool

/-- The two remote deletion operations, recorded as a trace. -/
inductive DelOp
  | detach (storeId fileId : String)
  | del (fileId : String)
deriving DecidableEq, Repr

/-- _delete_file (vector_store.py line 243): both steps are always attempted;
the result is true only when both succeeded. -/
def _delete_file (o : DeleteOracle) (storeId fileId : String) : Bool × List DelOp :=
  (o.storeDeleteOk fileId && o.fileDeleteOk fileId,
   [DelOp.detach storeId fileId, DelOp.del fileId])

/-- The dict returned by delete_vector_store_files. -/
structure DeleteResult where
  deleted : List String
  failed : List String
deriving DecidableEq, Repr

/-- The per-id loop of delete_vector_store_files. -/
def deleteLoop (o : DeleteOracle) (storeId : String) :
    List String → DeleteResult × List DelOp
  | [] => (⟨[], []⟩, [])
  | fid :: rest =>
    let step := _delete_file o storeId fid
    let r := deleteLoop o storeId rest
    (if step.1 then ⟨fid :: r.1.deleted, r.1.failed⟩
     else ⟨r.1.deleted, fid :: r.1.failed⟩,
     step.2 ++ r.2)

/-- delete_vector_store_files (vector_store.py line 263). -/
def delete_vector_store_files (o : DeleteOracle) (storeId : String)
    (fileIds : List String) : DeleteResult × List DelOp :=
  if fileIds = [] then (⟨[], []⟩, []) else deleteLoop o storeId fileIds

/-! ## src/api/google_drive.py -/

/-- The character class of FOLDER_ID_PATTERN, the regex for an id character
(alphanumeric, underscore or hyphen — the ASCII reading of word characters,
which is how both the spec and the claims read the pattern). -/
def isWordChar (c : Char) : Bool :=
  c.isAlphanum || c = '_' || c = '-'

/-- FOLDER_ID_PATTERN.fullmatch: the whole string is at least 10 id
characters. -/
def fullmatchFolderId (s : String) : Bool :=
  s.data.all isWordChar && decide (10 ≤ s.data.length)

/-- FOLDER_ID_PATTERN.search: regex search walks start positions left to
right and the greedy quantifier takes the maximal run, so the match is the
first maximal run of id characters whose length reaches 10. `runRev` holds
the current run, reversed; the run is checked when it ends (at a non-id
character or at the end of the input). -/
def scanAux : List Char → List Char → Option (List Char)
  | runRev, [] => if 10 ≤ runRev.length then some runRev.reverse else none
  | runRev, c :: rest =>
    if isWordChar c then scanAux (c :: runRev) rest
    else if 10 ≤ runRev.length then some runRev.reverse
    else scanAux [] rest

/-- extract_folder_id (google_drive.py line 81). -/
def extract_folder_id (folder_link : String) : Option String :=
  if folder_link = "" then none
  else if fullmatchFolderId folder_link then some folder_link
  else (scanAux [] folder_link.data).map (fun l => ⟨l⟩)

/-- The pattern predicate of the claim: a string of id characters with length
at least 10 (what FOLDER_ID_PATTERN accepts as a whole-string match). -/
def matchesFolderIdPattern (s : List Char) : Prop :=
  s.all isWordChar = true ∧ 10 ≤ s.length

/-- t occurs as a contiguous segment of l. -/
def ContigIn (t l : List Char) : Prop :=
  ∃ u v, l = u ++ t ++ v

/-! ## Concrete instances used by witnesses and counterexamples -/

/-- Upload calls: files.create and the attach of an uploaded file. -/
def isUploadOp : RemoteOp → Bool
  | RemoteOp.createFile _ => true
  | RemoteOp.attachFile _ _ => true
  | _ => false

/-- A run in which an .xlsx upload converts fine and then hits the
duplicate-filename conflict. -/
def oC1 : Oracle :=
  { apiKeyConfigured := true
    retrieveStoreOk := fun _ => true
    createStore := Except.ok "vs_new"
    listFiles := fun _ => Except.ok ["file-1"]
    retrieveFile := fun _ => some ⟨"report.txt"⟩
    convert := Except.ok [(1 : Byte)]
    createFile := Except.ok "file-2"
    attach := AttachOutcome.ok (some "completed")
    retrieveStoreInfo := fun _ => Except.ok (some 2) }

/-- A run in which a .pdf upload hits the duplicate-filename conflict on the
second listed file. -/
def oC2 : Oracle :=
  { apiKeyConfigured := true
    retrieveStoreOk := fun _ => true
    createStore := Except.ok "vs_new"
    listFiles := fun _ => Except.ok ["f-a", "f-b"]
    retrieveFile := fun fid => if fid = "f-b" then some ⟨"notes.pdf"⟩ else some ⟨"other.pdf"⟩
    convert := Except.error ⟨500, "unused"⟩
    createFile := Except.ok "f-c"
    attach := AttachOutcome.ok (some "completed")
    retrieveStoreInfo := fun _ => Except.ok (some 3) }

/-- A run with no API key configured: every remote call would fail. -/
def oC4 : Oracle :=
  { apiKeyConfigured := false
    retrieveStoreOk := fun _ => false
    createStore := Except.error ⟨500, "unused"⟩
    listFiles := fun _ => Except.error ⟨500, "unused"⟩
    retrieveFile := fun _ => none
    convert := Except.error ⟨500, "unused"⟩
    createFile := Except.error ⟨500, "unused"⟩
    attach := AttachOutcome.timeout
    retrieveStoreInfo := fun _ => Except.error ⟨500, "unused"⟩ }

/-- A listing in which the single entry has no status attribute while its
file-store record says deleted. -/
def oC7 : ListOracle :=
  { page := fun a =>
      match a with
      | none => ⟨[⟨"f1", none, none⟩], some false⟩
      | some _ => ⟨[], some false⟩
    retrieve := fun _ => some ⟨some "a.txt", some "deleted", some 5, 12⟩ }

/-- A one-entry listing of a completed file. -/
def oC7w : ListOracle :=
  { page := fun a =>
      match a with
      | none => ⟨[⟨"f3", some "a.txt", some "completed"⟩], some false⟩
      | some _ => ⟨[], some false⟩
    retrieve := fun _ => some ⟨none, some "completed", none, 3⟩ }

/-- Deletion oracle in which both steps succeed except the store-side delete
of file b. -/
def oC8 : DeleteOracle :=
  { storeDeleteOk := fun fid => fid ≠ "b"
    fileDeleteOk := fun _ => true }

/-! # Theorems -/

/-! ## Facts about the toy external-library stand-ins -/

theorem kdfW_length (p : String) (s : Bytes) : (kdfW p s).length = 32 := by
  simp [kdfW]

set_option maxRecDepth 4000 in
theorem b64W_roundtrip (l : Bytes) : b64dW (b64eW l) = some l := by
  unfold b64dW b64eW
  rw [List.map_map]
  congr 1
  refine List.map_congr_left ?_ |>.trans l.map_id
  intro b _
  have h : ∀ b : Byte, (Char.ofNat b.val).toNat % 256 = b.val := by decide
  exact Fin.ext (h b)

/-! ## Claim C3 : validate_csrf_token -/

/-- C3 counterexample: the two failure causes are both status 400 but carry
different detail messages, so a missing token and a mismatched token are not
reported identically to the caller. -/
theorem C3_counterexample :
    validate_csrf_token none (some "token-a") =
      Except.error ⟨400, "Missing CSRF token"⟩ ∧
    validate_csrf_token (some "token-a") (some "token-b") =
      Except.error ⟨400, "Invalid CSRF token"⟩ ∧
    validate_csrf_token none (some "token-a") ≠
      validate_csrf_token (some "token-a") (some "token-b") := by
  decide

/-- C3 (amended): validate_csrf_token succeeds exactly when both tokens are
present, non-empty and equal; every failure — missing token or mismatched
token — is reported with the same status code 400 (the same error kind),
though with different detail strings. -/
theorem C3_validate_csrf (a b : Option String) :
    (validate_csrf_token a b = Except.ok () ↔
      ∃ t, t ≠ "" ∧ a = some t ∧ b = some t) ∧
    (∀ e, validate_csrf_token a b = Except.error e → e.status = 400) := by
  constructor
  · constructor
    · intro h
      unfold validate_csrf_token at h
      split at h
      · exact absurd h (by simp)
      · split at h
        · exact absurd h (by simp)
        · rename_i hnone hne
          push_neg at hnone
          obtain ⟨h1, h2⟩ := hnone
          rcases a with _ | ta
          · simp [strTruthy] at h1
          rcases b with _ | tb
          · simp [strTruthy] at h2
          simp only [strTruthy] at h1 h2
          have hta : ta ≠ "" := by intro hx; simp [hx] at h1
          have htb : tb ≠ "" := by intro hx; simp [hx] at h2
          have heq : ta = tb := by simpa [hta, htb] using not_not.mp hne
          exact ⟨ta, hta, rfl, by rw [heq]⟩
    · rintro ⟨t, hne, rfl, rfl⟩
      simp [validate_csrf_token, strTruthy, hne]
  · intro e h
    unfold validate_csrf_token at h
    split at h
    · cases h; rfl
    · split at h
      · cases h; rfl
      · cases h

/-- C3 witness: the amended theorem evaluated at matching tokens and at a
missing-token failure. -/
theorem C3_validate_csrf_witness :
    validate_csrf_token (some "tok") (some "tok") = Except.ok () ∧
    (⟨400, "Missing CSRF token"⟩ : HError).status = 400 :=
  ⟨(C3_validate_csrf (some "tok") (some "tok")).1.mpr ⟨"tok", by decide, rfl, rfl⟩,
   (C3_validate_csrf none none).2 ⟨400, "Missing CSRF token"⟩ (by decide)⟩

/-! ## Claim C4 : ensure_file_size limits -/

theorem ensure_file_size_ok (c : Bytes) (h0 : c ≠ []) (h : c.length ≤ MAX_FILE_BYTES) :
    ensure_file_size c = Except.ok () := by
  unfold ensure_file_size
  rw [if_neg h0, if_neg (by omega)]

/-- C4: ensure_file_size rejects empty content with a 400, rejects content of
exactly MAX_FILE_BYTES + 1 with a 400, and accepts content of exactly
MAX_FILE_BYTES; with a valid extension the pipeline then proceeds past size
validation (here: all the way to the client assertion, which reports the
503 of an unconfigured key, a later stage). -/
theorem C4_size_limits :
    ensure_file_size [] = Except.error ⟨400, "Uploaded file is empty."⟩ ∧
    (∀ c : Bytes, c.length = MAX_FILE_BYTES + 1 →
      ensure_file_size c = Except.error ⟨400, "Uploaded file exceeds the 100 MB limit."⟩) ∧
    (∀ c : Bytes, c.length = MAX_FILE_BYTES → ensure_file_size c = Except.ok ()) ∧
    (∀ (c : Bytes) (o : Oracle) (dflt : Option String), c.length = MAX_FILE_BYTES →
      o.apiKeyConfigured = false →
      (ingest_file o dflt "doc.txt" c none).result =
        Except.error ⟨503, "OpenAI API key is not configured."⟩) := by
  have hok : ∀ c : Bytes, c.length = MAX_FILE_BYTES → ensure_file_size c = Except.ok () := by
    intro c h
    have h0 : c ≠ [] := by
      intro hx
      rw [hx] at h
      simp [MAX_FILE_BYTES] at h
    exact ensure_file_size_ok c h0 (le_of_eq h)
  refine ⟨rfl, ?_, hok, ?_⟩
  · intro c h
    have h0 : c ≠ [] := by
      intro hx
      rw [hx] at h
      simp [MAX_FILE_BYTES] at h
    unfold ensure_file_size
    rw [if_neg h0, if_pos (by omega)]
  · intro c o dflt hlen hapi
    have hv : validate_upload "doc.txt" = Except.ok () := by decide
    have hs : ensure_file_size c = Except.ok () := hok c hlen
    unfold ingest_file
    rw [hv, hs]
    have hext : ¬ (lowerStr (pathSuffix "doc.txt") ∈ CONVERTIBLE_EXTENSIONS) := by decide
    rw [if_neg hext]
    unfold ingestAfterConvert
    rw [hapi]
    simp

/-- C4 witness: the size theorem evaluated at concrete contents of length
MAX_FILE_BYTES and MAX_FILE_BYTES + 1, and a concrete keyless run. -/
theorem C4_size_limits_witness :
    ensure_file_size (List.replicate (MAX_FILE_BYTES + 1) (0 : Byte)) =
      Except.error ⟨400, "Uploaded file exceeds the 100 MB limit."⟩ ∧
    ensure_file_size (List.replicate MAX_FILE_BYTES (0 : Byte)) = Except.ok () ∧
    (ingest_file oC4 none "doc.txt" (List.replicate MAX_FILE_BYTES (0 : Byte)) none).result =
      Except.error ⟨503, "OpenAI API key is not configured."⟩ :=
  ⟨C4_size_limits.2.1 _ (by simp),
   C4_size_limits.2.2.1 _ (by simp),
   C4_size_limits.2.2.2 _ oC4 none (by simp) rfl⟩

/-! ## Claim C8 : delete_vector_store_files -/

theorem deleteLoop_spec (o : DeleteOracle) (storeId : String) (ids : List String) :
    deleteLoop o storeId ids =
      (⟨ids.filter (fun i => o.storeDeleteOk i && o.fileDeleteOk i),
        ids.filter (fun i => !(o.storeDeleteOk i && o.fileDeleteOk i))⟩,
       ids.flatMap (fun i => [DelOp.detach storeId i, DelOp.del i])) := by
  induction ids with
  | nil => rfl
  | cons a t ih =>
      unfold deleteLoop _delete_file
      rw [ih]
      by_cases h : (o.storeDeleteOk a && o.fileDeleteOk a) = true
      · rw [Bool.and_eq_true] at h
        simp [List.filter_cons, h.1, h.2]
      · have h2 : o.storeDeleteOk a = false ∨ o.fileDeleteOk a = false := by
          rw [Bool.and_eq_true] at h
          push_neg at h
          by_cases hx : o.storeDeleteOk a = true
          · exact Or.inr (Bool.not_eq_true _ ▸ h hx)
          · exact Or.inl (Bool.not_eq_true _ ▸ hx)
        simp [List.filter_cons, h, h2]

/-- C8: delete_vector_store_files attempts detach-from-index and
delete-from-store for every id, an id lands in failed exactly when one of
the two steps failed and in deleted otherwise, the function returns a normal
value under partial failure, and on [a, b] with a succeeding and b failing
it returns deleted [a], failed [b]. -/
theorem C8_delete_partial_failure (o : DeleteOracle) (storeId : String) (ids : List String) :
    (delete_vector_store_files o storeId ids).1.deleted =
      ids.filter (fun i => o.storeDeleteOk i && o.fileDeleteOk i) ∧
    (delete_vector_store_files o storeId ids).1.failed =
      ids.filter (fun i => !(o.storeDeleteOk i && o.fileDeleteOk i)) ∧
    (delete_vector_store_files o storeId ids).2 =
      ids.flatMap (fun i => [DelOp.detach storeId i, DelOp.del i]) ∧
    delete_vector_store_files oC8 "vs" ["a", "b"] =
      (⟨["a"], ["b"]⟩,
       [DelOp.detach "vs" "a", DelOp.del "a", DelOp.detach "vs" "b", DelOp.del "b"]) := by
  have hmain : delete_vector_store_files o storeId ids =
      (⟨ids.filter (fun i => o.storeDeleteOk i && o.fileDeleteOk i),
        ids.filter (fun i => !(o.storeDeleteOk i && o.fileDeleteOk i))⟩,
       ids.flatMap (fun i => [DelOp.detach storeId i, DelOp.del i])) := by
    unfold delete_vector_store_files
    by_cases h : ids = []
    · subst h; rfl
    · rw [if_neg h, deleteLoop_spec]
  refine ⟨by rw [hmain], by rw [hmain], by rw [hmain], by decide⟩

/-! ## Claim C10 : get_csrf_token idempotence -/

/-- C10: when the session holds a non-empty CSRF token, get_csrf_token
returns it and leaves the session unchanged; when it holds none, the fresh
token is returned and stored, and every later call on the updated session
returns that same token unchanged. -/
theorem C10_get_csrf_idempotent (s : Session) (fresh : String) :
    (∀ t, s.csrf_token = some t → t ≠ "" → get_csrf_token fresh s = (t, s)) ∧
    (s.csrf_token = none →
      get_csrf_token fresh s = (fresh, { s with csrf_token := some fresh }) ∧
      (fresh ≠ "" → ∀ fresh2,
        get_csrf_token fresh2 { s with csrf_token := some fresh } =
          (fresh, { s with csrf_token := some fresh }))) := by
  constructor
  · intro t ht hne
    simp [get_csrf_token, ht, hne]
  · intro hn
    constructor
    · simp [get_csrf_token, hn]
    · intro hf fresh2
      simp [get_csrf_token, hf]

/-- C10 witness: concrete sessions with and without a stored token. -/
theorem C10_get_csrf_idempotent_witness :
    get_csrf_token "tok2" { csrf_token := some "tok1" } =
      ("tok1", { csrf_token := some "tok1" }) ∧
    get_csrf_token "tok1" ({} : Session) = ("tok1", { csrf_token := some "tok1" }) :=
  ⟨(C10_get_csrf_idempotent { csrf_token := some "tok1" } "tok2").1 "tok1" rfl (by decide),
   ((C10_get_csrf_idempotent {} "tok1").2 rfl).1⟩

/-! ## Claims C5 and C6 : password hashing and verification -/

theorem strEta (s : String) : (⟨s.data⟩ : String) = s := by
  obtain ⟨l⟩ := s
  rfl

theorem pyDropChars_pbkdf2 (e : String) : pyDropChars ("pbkdf2$" ++ e) 7 = e := by
  unfold pyDropChars
  rw [String.data_append, List.drop_left' (by decide)]

theorem split_hash_of_hash (kdf : String → Bytes → Bytes) (enc : Bytes → String)
    (dec : String → Option Bytes) (hrt : ∀ x, dec (enc x) = some x)
    (salt : Bytes) (h16 : salt.length = 16) (p : String) :
    _split_hash dec (hash_password kdf enc salt p) = some (salt, kdf p salt) := by
  unfold hash_password _split_hash
  have hne : ("pbkdf2$" ++ enc (salt ++ kdf p salt)) ≠ "" := by
    intro h
    have hd := congrArg String.data h
    rw [String.data_append] at hd
    exact absurd (List.append_eq_nil.mp hd).1 (by decide)
  rw [if_neg hne]
  have hsw : pyStartswith ("pbkdf2$" ++ enc (salt ++ kdf p salt)) "pbkdf2$" = true := by
    unfold pyStartswith
    rw [String.data_append, List.take_left]
    simp
  rw [if_neg (by simp [hsw])]
  rw [pyDropChars_pbkdf2, hrt]
  simp [List.take_left' h16, List.drop_left' h16]

/-- C5: verification accepts the password a stored hash was derived from and
rejects any other password whose derived key differs; hashing the same
password under two distinct fresh salts produces two distinct encoded
strings, both of which verify. The key derivation and base64 codec are the
external hashlib/base64 calls, abstracted as kdf, enc, dec with decode a
left inverse of encode. -/
theorem C5_hash_verify_roundtrip (kdf : String → Bytes → Bytes)
    (enc : Bytes → String) (dec : String → Option Bytes)
    (hrt : ∀ x, dec (enc x) = some x) (p p2 : String) (salt1 salt2 : Bytes)
    (h1 : salt1.length = 16) (h2 : salt2.length = 16)
    (hcoll : kdf p2 salt1 ≠ kdf p salt1) (hsalt : salt1 ≠ salt2) :
    verify_password kdf dec p (some (hash_password kdf enc salt1 p)) = true ∧
    verify_password kdf dec p2 (some (hash_password kdf enc salt1 p)) = false ∧
    hash_password kdf enc salt1 p ≠ hash_password kdf enc salt2 p ∧
    verify_password kdf dec p (some (hash_password kdf enc salt2 p)) = true := by
  have hs1 := split_hash_of_hash kdf enc dec hrt salt1 h1 p
  have hs2 := split_hash_of_hash kdf enc dec hrt salt2 h2 p
  refine ⟨?_, ?_, ?_, ?_⟩
  · unfold verify_password
    simp only [Option.getD_some, hs1]
    simp [compare_digest]
  · unfold verify_password
    simp only [Option.getD_some, hs1]
    simp [compare_digest, hcoll]
  · intro h
    unfold hash_password at h
    have henc : enc (salt1 ++ kdf p salt1) = enc (salt2 ++ kdf p salt2) := by
      have := congrArg (fun s => pyDropChars s 7) h
      simpa only [pyDropChars_pbkdf2] using this
    have hsome : some (salt1 ++ kdf p salt1) = some (salt2 ++ kdf p salt2) := by
      rw [← hrt, ← hrt, henc]
    have hl := Option.some.inj hsome
    have hts := congrArg (List.take 16) hl
    rw [List.take_left' h1, List.take_left' h2] at hts
    exact hsalt hts
  · unfold verify_password
    simp only [Option.getD_some, hs2]
    simp [compare_digest]

/-- C5 witness: concrete stand-in kdf and codec, two distinct 16-byte salts
and two passwords with distinct derived keys. -/
theorem C5_hash_verify_roundtrip_witness :
    verify_password kdfW b64dW "pw"
      (some (hash_password kdfW b64eW (List.replicate 16 (0 : Byte)) "pw")) = true ∧
    verify_password kdfW b64dW "longerpw"
      (some (hash_password kdfW b64eW (List.replicate 16 (0 : Byte)) "pw")) = false ∧
    hash_password kdfW b64eW (List.replicate 16 (0 : Byte)) "pw" ≠
      hash_password kdfW b64eW ((1 : Byte) :: List.replicate 15 (0 : Byte)) "pw" ∧
    verify_password kdfW b64dW "pw"
      (some (hash_password kdfW b64eW ((1 : Byte) :: List.replicate 15 (0 : Byte)) "pw")) = true :=
  C5_hash_verify_roundtrip kdfW b64eW b64dW b64W_roundtrip "pw" "longerpw"
    (List.replicate 16 (0 : Byte)) ((1 : Byte) :: List.replicate 15 (0 : Byte))
    (by simp) (by simp) (by decide) (by decide)

/-- C6: verify_password is a total boolean function (it never raises) and
fails closed: a missing stored value, an empty string, a stored value
without the pbkdf2 prefix, a payload the base64 decoder rejects, and a
decoded payload shorter than the 16-byte salt all verify as false, for
every password. -/
theorem C6_verify_fails_closed (kdf : String → Bytes → Bytes)
    (dec : String → Option Bytes) (hlen : ∀ q s, (kdf q s).length = 32)
    (p : String) :
    verify_password kdf dec p none = false ∧
    verify_password kdf dec p (some "") = false ∧
    (∀ s, pyStartswith s "pbkdf2$" = false → verify_password kdf dec p (some s) = false) ∧
    (∀ s, dec (pyDropChars s 7) = none → verify_password kdf dec p (some s) = false) ∧
    (∀ s raw, dec (pyDropChars s 7) = some raw → raw.length < 16 →
      verify_password kdf dec p (some s) = false) := by
  refine ⟨rfl, rfl, ?_, ?_, ?_⟩
  · intro s hsw
    unfold verify_password
    by_cases hempty : s = ""
    · subst hempty; rfl
    · unfold _split_hash
      simp only [Option.getD_some]
      rw [if_neg hempty, if_pos (by simp [hsw])]
  · intro s hdec
    unfold verify_password
    by_cases hempty : s = ""
    · subst hempty; rfl
    · unfold _split_hash
      simp only [Option.getD_some]
      rw [if_neg hempty]
      by_cases hsw : pyStartswith s "pbkdf2$" = true
      · rw [if_neg (by simp [hsw]), hdec]
      · rw [if_pos (by simpa using hsw)]
  · intro s raw hdec hraw
    unfold verify_password
    by_cases hempty : s = ""
    · subst hempty; rfl
    · unfold _split_hash
      simp only [Option.getD_some]
      rw [if_neg hempty]
      by_cases hsw : pyStartswith s "pbkdf2$" = true
      · rw [if_neg (by simp [hsw]), hdec]
        have hdrop : raw.drop 16 = [] := List.drop_eq_nil_of_le (by omega)
        have hx : kdf p (raw.take 16) ≠ [] := by
          intro hx
          have hl := hlen p (raw.take 16)
          rw [hx] at hl
          simp at hl
        simp [compare_digest, hdrop, hx]
      · rw [if_pos (by simpa using hsw)]

/-- C6 witness: the fail-closed theorem evaluated on the stand-in kdf at a
missing value and at a value without the algorithm prefix. -/
theorem C6_verify_fails_closed_witness :
    verify_password kdfW b64dW "pw" none = false ∧
    verify_password kdfW b64dW "pw" (some "plainhash") = false :=
  ⟨(C6_verify_fails_closed kdfW b64dW kdfW_length "pw").1,
   (C6_verify_fails_closed kdfW b64dW kdfW_length "pw").2.2.1 "plainhash" (by decide)⟩

/-! ## Claim C1 : staging cleanup on every exit path -/

/-- C1: the claim fails — on the duplicate-conflict exit of a convertible
upload, the staged spreadsheet and the converted text file are created but
not deleted before control returns (the cleanup sites at vector_store.py
lines 414-416 and 487-490 do not cover the 409 raise at line 432). -/
theorem C1_conflict_leak :
    (ingest_file oC1 (some "vs_default") "report.xlsx" [(0 : Byte)] (some "vs_1")).result =
      Except.error ⟨409, "File " ++ "report.txt" ++ " already exists in the vector store. Please delete the existing file first if you want to replace it."⟩ ∧
    (ingest_file oC1 (some "vs_default") "report.xlsx" [(0 : Byte)] (some "vs_1")).created =
      [Temp.stagedExcel, Temp.convertedTxt] ∧
    (ingest_file oC1 (some "vs_default") "report.xlsx" [(0 : Byte)] (some "vs_1")).cleaned =
      [] := by
  decide

/-! ## Claim C2 : duplicate filename causes 409 with no upload call -/

theorem ensureDefaultTier_no_upload (o : Oracle) (dflt : Option String) :
    ∀ op ∈ (ensureDefaultTier o dflt).2, isUploadOp op = false := by
  intro op hop
  unfold ensureDefaultTier at hop
  rcases hd : strTruthy dflt with _ | d <;> rw [hd] at hop
  · simp at hop
    subst hop
    rfl
  · by_cases hr : o.retrieveStoreOk d <;> simp [hr] at hop
    · subst hop
      rfl
    · rcases hop with rfl | rfl <;> rfl

theorem ensure_trace_no_upload (o : Oracle) (dflt vsid : Option String) :
    ∀ op ∈ (_ensure_vector_store o dflt vsid).2, isUploadOp op = false := by
  intro op hop
  unfold _ensure_vector_store at hop
  rcases hv : strTruthy vsid with _ | id <;> rw [hv] at hop
  · exact ensureDefaultTier_no_upload o dflt op hop
  · by_cases hr : o.retrieveStoreOk id <;> simp [hr] at hop
    · subst hop
      rfl
    · rcases hop with rfl | hop
      · rfl
      · exact ensureDefaultTier_no_upload o dflt op hop

theorem findAux_trace_no_upload (o : Oracle) (fn : String) (ids : List String) :
    ∀ op ∈ (findAux o fn ids).2, isUploadOp op = false := by
  induction ids with
  | nil =>
      intro op hop
      simp [findAux] at hop
  | cons a t ih =>
      intro op hop
      unfold findAux at hop
      rcases hr : o.retrieveFile a with _ | m <;> rw [hr] at hop
      · simp at hop
        rcases hop with rfl | hop
        · rfl
        · exact ih op hop
      · by_cases hm : m.filename = fn <;> simp [hm] at hop
        · subst hop
          rfl
        · rcases hop with rfl | hop
          · rfl
          · exact ih op hop

theorem findAux_isSome (o : Oracle) (fn : String) (ids : List String) :
    (findAux o fn ids).1.isSome = true ↔
      ∃ id ∈ ids, ∃ m, o.retrieveFile id = some m ∧ m.filename = fn := by
  induction ids with
  | nil => simp [findAux]
  | cons a t ih =>
      unfold findAux
      rcases hr : o.retrieveFile a with _ | m
      · simp only [List.mem_cons]
        rw [show (∃ id, (id = a ∨ id ∈ t) ∧ ∃ m, o.retrieveFile id = some m ∧ m.filename = fn) ↔
             (∃ id ∈ t, ∃ m, o.retrieveFile id = some m ∧ m.filename = fn) from by
          constructor
          · rintro ⟨id, hid | hid, m, hm, hfn⟩
            · rw [hid] at hm
              rw [hr] at hm
              cases hm
            · exact ⟨id, hid, m, hm, hfn⟩
          · rintro ⟨id, hid, m, hm, hfn⟩
            exact ⟨id, Or.inr hid, m, hm, hfn⟩]
        simpa using ih
      · by_cases hm : m.filename = fn
        · simp [hm]
          exact Or.inl ⟨m, hr, hm⟩
        · simp only [hm, if_false, List.mem_cons]
          rw [show (∃ id, (id = a ∨ id ∈ t) ∧ ∃ mm, o.retrieveFile id = some mm ∧ mm.filename = fn) ↔
               (∃ id ∈ t, ∃ mm, o.retrieveFile id = some mm ∧ mm.filename = fn) from by
            constructor
            · rintro ⟨id, hid | hid, mm, hmm, hfn⟩
              · rw [hid] at hmm
                rw [hr] at hmm
                cases hmm
                exact absurd hfn hm
              · exact ⟨id, hid, mm, hmm, hfn⟩
            · rintro ⟨id, hid, mm, hmm, hfn⟩
              exact ⟨id, Or.inr hid, mm, hmm, hfn⟩]
          simpa using ih

theorem ingestAfterConvert_conflict (o : Oracle) (dflt vsid : Option String)
    (original uploadName : String) (content : Bytes) (temps : List Temp) (conv : Bool)
    (hapi : o.apiKeyConfigured = true)
    (storeId : String) (hens : (_ensure_vector_store o dflt vsid).1 = Except.ok storeId)
    (ids : List String) (hlist : o.listFiles storeId = Except.ok ids)
    (hfound : (findAux o uploadName ids).1.isSome = true) :
    (ingestAfterConvert o dflt vsid original uploadName content temps conv).result =
      Except.error ⟨409, "File " ++ uploadName ++ " already exists in the vector store. Please delete the existing file first if you want to replace it."⟩ ∧
    ∀ op ∈ (ingestAfterConvert o dflt vsid original uploadName content temps conv).calls,
      isUploadOp op = false := by
  obtain ⟨fid, hfid⟩ := Option.isSome_iff_exists.mp hfound
  unfold ingestAfterConvert
  rw [if_neg (by simp [hapi])]
  rcases hE : _ensure_vector_store o dflt vsid with ⟨res, tr⟩
  rw [hE] at hens
  simp only at hens
  subst hens
  have hF : _find_existing_file_id o storeId uploadName =
      (Except.ok (some fid), RemoteOp.listFiles storeId :: (findAux o uploadName ids).2) := by
    unfold _find_existing_file_id
    rw [hlist]
    dsimp only
    rw [hfid]
  dsimp only
  rw [hF]
  refine ⟨rfl, ?_⟩
  intro op hop
  simp only [List.mem_append, List.mem_cons] at hop
  rcases hop with hop | rfl | hop
  · have := ensure_trace_no_upload o dflt vsid op
    rw [hE] at this
    exact this hop
  · rfl
  · exact findAux_trace_no_upload o uploadName ids op hop

/-- C2: whenever the run reaches the duplicate check (validation, size
check, conversion, client assertion and index resolution succeed) and some
file already stored in the resolved index has a retrievable filename equal
to the (possibly converted) target filename, ingest_file fails with the 409
conflict and performs no upload call — no files.create and no attach
operation appear in the trace. -/
theorem C2_duplicate_conflict (o : Oracle) (dflt vsid : Option String)
    (filename : String) (content : Bytes) (uploadName : String) (txt : Bytes)
    (hval : validate_upload filename = Except.ok ())
    (hsize : ensure_file_size content = Except.ok ())
    (hconv : lowerStr (pathSuffix filename) ∈ CONVERTIBLE_EXTENSIONS → o.convert = Except.ok txt)
    (hupload : uploadName =
      if lowerStr (pathSuffix filename) ∈ CONVERTIBLE_EXTENSIONS then
        pathStem filename ++ ".txt" else filename)
    (hapi : o.apiKeyConfigured = true)
    (storeId : String) (hens : (_ensure_vector_store o dflt vsid).1 = Except.ok storeId)
    (ids : List String) (hlist : o.listFiles storeId = Except.ok ids)
    (hdup : ∃ id ∈ ids, ∃ m, o.retrieveFile id = some m ∧ m.filename = uploadName) :
    (ingest_file o dflt filename content vsid).result =
      Except.error ⟨409, "File " ++ uploadName ++ " already exists in the vector store. Please delete the existing file first if you want to replace it."⟩ ∧
    (∀ fn, RemoteOp.createFile fn ∉ (ingest_file o dflt filename content vsid).calls) ∧
    (∀ a b, RemoteOp.attachFile a b ∉ (ingest_file o dflt filename content vsid).calls) := by
  have hfound : (findAux o uploadName ids).1.isSome = true :=
    (findAux_isSome o uploadName ids).mpr hdup
  have key : (ingest_file o dflt filename content vsid).result =
      Except.error ⟨409, "File " ++ uploadName ++ " already exists in the vector store. Please delete the existing file first if you want to replace it."⟩ ∧
      ∀ op ∈ (ingest_file o dflt filename content vsid).calls, isUploadOp op = false := by
    unfold ingest_file
    rw [hval, hsize]
    by_cases hc : lowerStr (pathSuffix filename) ∈ CONVERTIBLE_EXTENSIONS
    · rw [if_pos hc, hconv hc]
      have hu : pathStem filename ++ ".txt" = uploadName := by
        rw [hupload, if_pos hc]
      rw [hu]
      exact ingestAfterConvert_conflict o dflt vsid filename uploadName txt
        [Temp.stagedExcel, Temp.convertedTxt] true hapi storeId hens ids hlist hfound
    · rw [if_neg hc]
      have hu : filename = uploadName := by
        rw [hupload, if_neg hc]
      rw [hu]
      exact ingestAfterConvert_conflict o dflt vsid uploadName uploadName content
        [] false hapi storeId hens ids hlist hfound
  refine ⟨key.1, ?_, ?_⟩
  · intro fn hmem
    have := key.2 _ hmem
    simp [isUploadOp] at this
  · intro a b hmem
    have := key.2 _ hmem
    simp [isUploadOp] at this

/-- C2 witness: a concrete run in which the stored file f-b already carries
the target filename. -/
theorem C2_duplicate_conflict_witness :
    (ingest_file oC2 none "notes.pdf" [(7 : Byte)] (some "vs1")).result =
      Except.error ⟨409, "File " ++ "notes.pdf" ++ " already exists in the vector store. Please delete the existing file first if you want to replace it."⟩ ∧
    (∀ fn, RemoteOp.createFile fn ∉
      (ingest_file oC2 none "notes.pdf" [(7 : Byte)] (some "vs1")).calls) ∧
    (∀ a b, RemoteOp.attachFile a b ∉
      (ingest_file oC2 none "notes.pdf" [(7 : Byte)] (some "vs1")).calls) :=
  C2_duplicate_conflict oC2 none (some "vs1") "notes.pdf" [(7 : Byte)] "notes.pdf" []
    (by decide) (by decide) (fun h => absurd h (by decide)) (by decide) rfl
    "vs1" (by decide) ["f-a", "f-b"] (by decide)
    ⟨"f-b", by decide, ⟨"notes.pdf"⟩, by decide, rfl⟩

/-! ## Claim C9 : extract_folder_id -/

theorem contigIn_length_le {t l : List Char} (h : ContigIn t l) : t.length ≤ l.length := by
  obtain ⟨u, v, rfl⟩ := h
  simp [List.length_append]
  omega

theorem contig_split {t A B : List Char} {c : Char} (hmem : c ∉ t)
    (h : ContigIn t (A ++ c :: B)) : ContigIn t A ∨ ContigIn t B := by
  obtain ⟨u, v, h⟩ := h
  by_cases hle : u.length + t.length ≤ A.length
  · left
    have htake : A = (A ++ c :: B).take A.length := (List.take_left A (c :: B)).symm
    rw [h] at htake
    rw [List.append_assoc, List.take_append_eq_append_take,
        List.take_of_length_le (by omega),
        List.take_append_eq_append_take,
        List.take_of_length_le (by omega)] at htake
    exact ⟨u, v.take (A.length - u.length - t.length),
      htake.trans (List.append_assoc u t _).symm⟩
  · by_cases hA : A.length + 1 ≤ u.length
    · right
      have hdrop : (A ++ c :: B).drop (A.length + 1) = B := by
        rw [List.drop_append_eq_append_drop, List.drop_eq_nil_of_le (by omega)]
        simp
      rw [h] at hdrop
      rw [List.append_assoc, List.drop_append_eq_append_drop,
          show A.length + 1 - u.length = 0 from by omega, List.drop_zero] at hdrop
      exact ⟨u.drop (A.length + 1), v, by rw [← hdrop, List.append_assoc]⟩
    · exfalso
      push_neg at hle hA
      have hul : u.length ≤ A.length := by omega
      have hdrop : (A ++ c :: B).drop A.length = c :: B := List.drop_left A (c :: B)
      rw [h, List.append_assoc, List.drop_append_eq_append_drop,
          List.drop_eq_nil_of_le hul, List.nil_append,
          List.drop_append_eq_append_drop,
          show A.length - u.length - t.length = 0 from by omega, List.drop_zero] at hdrop
      have htne : t.drop (A.length - u.length) ≠ [] := by
        intro hx
        have := congrArg List.length hx
        rw [List.length_drop] at this
        simp at this
        omega
      rcases ht : t.drop (A.length - u.length) with _ | ⟨x, xs⟩
      · exact htne ht
      · rw [ht] at hdrop
        have hx : x = c := by
          have := congrArg (fun l => l.head?) hdrop
          simpa using this
        have hxt : x ∈ t := List.mem_of_mem_drop (by rw [ht]; exact List.mem_cons_self x xs)
        rw [hx] at hxt
        exact hmem hxt

theorem scanAux_sound : ∀ (l runRev r : List Char), runRev.all isWordChar = true →
    scanAux runRev l = some r →
    r.all isWordChar = true ∧ 10 ≤ r.length ∧ ContigIn r (runRev.reverse ++ l) := by
  intro l
  induction l with
  | nil =>
      intro runRev r hall h
      unfold scanAux at h
      by_cases hlen : 10 ≤ runRev.length
      · rw [if_pos hlen] at h
        cases h
        refine ⟨by simpa using hall, by simpa using hlen, [], [], by simp⟩
      · rw [if_neg hlen] at h
        cases h
  | cons c rest ih =>
      intro runRev r hall h
      unfold scanAux at h
      by_cases hw : isWordChar c = true
      · rw [if_pos hw] at h
        have hall2 : (c :: runRev).all isWordChar = true := by
          simp [List.all_cons, hw, hall]
        obtain ⟨h1, h2, h3⟩ := ih (c :: runRev) r hall2 h
        refine ⟨h1, h2, ?_⟩
        rw [List.reverse_cons, List.append_assoc] at h3
        simpa using h3
      · rw [if_neg (by simp [hw])] at h
        by_cases hlen : 10 ≤ runRev.length
        · rw [if_pos hlen] at h
          cases h
          refine ⟨by simpa using hall, by simpa using hlen, [], c :: rest, by simp⟩
        · rw [if_neg hlen] at h
          obtain ⟨h1, h2, u, v, h3⟩ := ih [] r rfl h
          simp only [List.reverse_nil, List.nil_append] at h3
          exact ⟨h1, h2, runRev.reverse ++ c :: u, v,
            by rw [h3]; simp [List.append_assoc]⟩

theorem scanAux_long : ∀ (l runRev : List Char), 10 ≤ runRev.length →
    (scanAux runRev l).isSome = true := by
  intro l
  induction l with
  | nil =>
      intro runRev h
      unfold scanAux
      rw [if_pos h]
      rfl
  | cons c rest ih =>
      intro runRev h
      unfold scanAux
      by_cases hw : isWordChar c = true
      · rw [if_pos hw]
        exact ih (c :: runRev) (by simp; omega)
      · rw [if_neg (by simp [hw]), if_pos h]
        rfl

theorem scanAux_complete : ∀ (l runRev : List Char) (t : List Char),
    runRev.all isWordChar = true → t.all isWordChar = true → 10 ≤ t.length →
    ContigIn t (runRev.reverse ++ l) → (scanAux runRev l).isSome = true := by
  intro l
  induction l with
  | nil =>
      intro runRev t hallr hallt hlen hc
      rw [List.append_nil] at hc
      have := contigIn_length_le hc
      rw [List.length_reverse] at this
      unfold scanAux
      rw [if_pos (by omega)]
      rfl
  | cons c rest ih =>
      intro runRev t hallr hallt hlen hc
      unfold scanAux
      by_cases hw : isWordChar c = true
      · rw [if_pos hw]
        refine ih (c :: runRev) t (by simp [List.all_cons, hw, hallr]) hallt hlen ?_
        rw [List.reverse_cons, List.append_assoc]
        simpa using hc
      · rw [if_neg (by simp [hw])]
        by_cases hrlen : 10 ≤ runRev.length
        · rw [if_pos hrlen]
          rfl
        · rw [if_neg hrlen]
          have hcmem : c ∉ t := by
            intro hmem
            have := List.all_eq_true.mp hallt c hmem
            exact hw this
          rcases contig_split hcmem hc with hA | hB
          · exfalso
            have := contigIn_length_le hA
            rw [List.length_reverse] at this
            omega
          · exact ih [] t rfl hallt hlen (by simpa using hB)

/-- C9: extract_folder_id returns the input verbatim when the whole input
matches the identifier pattern (id characters, length at least 10); on the
sample share URL it returns the trailing folder id; on the empty string it
returns none; any returned value matches the pattern and occurs contiguously
in the input; and whenever some contiguous segment of the input matches the
pattern, the function returns a value. -/
theorem C9_extract_folder_id :
    (∀ s : String, matchesFolderIdPattern s.data → extract_folder_id s = some s) ∧
    extract_folder_id "https://drive.google.com/drive/folders/1AbCdEfGhIJ" =
      some "1AbCdEfGhIJ" ∧
    extract_folder_id "" = none ∧
    (∀ s r : String, extract_folder_id s = some r →
      matchesFolderIdPattern r.data ∧ ContigIn r.data s.data) ∧
    (∀ (s : String) (t : List Char), ContigIn t s.data → matchesFolderIdPattern t →
      (extract_folder_id s).isSome = true) := by
  refine ⟨?_, by decide, by decide, ?_, ?_⟩
  · rintro s ⟨hall, hlen⟩
    have hne : s ≠ "" := by
      intro hx
      subst hx
      exact absurd hlen (by decide)
    unfold extract_folder_id
    rw [if_neg hne, if_pos (by unfold fullmatchFolderId; simp [hall]; exact hlen)]
  · intro s r h
    unfold extract_folder_id at h
    by_cases hne : s = ""
    · rw [if_pos hne] at h
      cases h
    · rw [if_neg hne] at h
      by_cases hf : fullmatchFolderId s = true
      · rw [if_pos hf] at h
        cases h
        unfold fullmatchFolderId at hf
        rw [Bool.and_eq_true, decide_eq_true_eq] at hf
        exact ⟨⟨hf.1, hf.2⟩, [], [], by simp⟩
      · rw [if_neg hf] at h
        rcases hm : scanAux [] s.data with _ | l
        · rw [hm] at h
          cases h
        · rw [hm] at h
          cases h
          obtain ⟨h1, h2, hc⟩ := scanAux_sound s.data [] l rfl hm
          simp only [List.reverse_nil, List.nil_append] at hc
          exact ⟨⟨h1, h2⟩, hc⟩
  · rintro s t hc ⟨hall, hlen⟩
    unfold extract_folder_id
    by_cases hne : s = ""
    · exfalso
      subst hne
      have hle := contigIn_length_le hc
      have h0 : ("" : String).data.length = 0 := rfl
      omega
    · rw [if_neg hne]
      by_cases hf : fullmatchFolderId s = true
      · rw [if_pos hf]
        rfl
      · rw [if_neg hf]
        rw [Option.isSome_map']
        exact scanAux_complete s.data [] t rfl hall hlen (by simpa using hc)

/-- C9 witness: a verbatim id and a padded id, through the claim theorem. -/
theorem C9_extract_folder_id_witness :
    extract_folder_id "folder-id-12345" = some "folder-id-12345" ∧
    (extract_folder_id "x/1AbCdEfGhIJ/y").isSome = true :=
  ⟨C9_extract_folder_id.1 "folder-id-12345" ⟨by decide, by decide⟩,
   C9_extract_folder_id.2.2.2.2 "x/1AbCdEfGhIJ/y" "1AbCdEfGhIJ".data
     ⟨"x/".data, "/y".data, by decide⟩ ⟨by decide, by decide⟩⟩

/-! ## Claim C7 : list_vector_store_files -/

theorem processEntry_some (r : String → Option FileDetails) (e : VSFileEntry)
    (x : OutFile) (h : processEntry r e = some x) :
    (r e.id).isSome = true ∧
    ∀ s, strTruthy e.status = some s →
      lowerStr s ≠ "deleted" ∧ lowerStr s ≠ "not_found" ∧ x.status = s := by
  unfold processEntry at h
  rcases hst : strTruthy e.status with _ | s <;> rw [hst] at h <;> dsimp only at h
  · rcases hr : r e.id with _ | d <;> rw [hr] at h <;> dsimp only at h
    · cases h
    · refine ⟨rfl, ?_⟩
      intro s hs
      cases hs
  · by_cases hdel : lowerStr s = "deleted" ∨ lowerStr s = "not_found"
    · rw [if_pos hdel] at h
      cases h
    · rw [if_neg hdel] at h
      rcases hr : r e.id with _ | d <;> rw [hr] at h <;> dsimp only at h
      · cases h
      · cases h
        push_neg at hdel
        refine ⟨rfl, ?_⟩
        intro s2 hs2
        cases hs2
        exact ⟨hdel.1, hdel.2, rfl⟩

theorem listLoop_mem (o : ListOracle) : ∀ (fuel : Nat) (after : Option String)
    (acc : List OutFile), ∀ x ∈ listLoop o fuel after acc,
    x ∈ acc ∨ ∃ e, processEntry o.retrieve e = some x := by
  intro fuel
  induction fuel with
  | zero =>
      intro after acc x hx
      exact Or.inl hx
  | succ n ih =>
      intro after acc x hx
      unfold listLoop at hx
      dsimp only at hx
      rcases hd : (o.page after).data with _ | ⟨e, es⟩ <;> rw [hd] at hx <;> dsimp only at hx
      · exact Or.inl hx
      · have hacc2 : ∀ y, y ∈ acc ++ (e :: es).filterMap (processEntry o.retrieve) →
            y ∈ acc ∨ ∃ e2, processEntry o.retrieve e2 = some y := by
          intro y hy
          rcases List.mem_append.mp hy with hy | hy
          · exact Or.inl hy
          · obtain ⟨e2, _, he2⟩ := List.mem_filterMap.mp hy
            exact Or.inr ⟨e2, he2⟩
        by_cases hm : ((o.page after).has_more.getD (decide (100 ≤ (e :: es).length))) = true
        · rw [if_pos hm] at hx
          rcases ih _ _ x hx with hx2 | hx2
          · exact hacc2 x hx2
          · exact Or.inr hx2
        · rw [if_neg hm] at hx
          exact hacc2 x hx

/-- C7 counterexample: an entry whose listing status attribute is absent but
whose file-store record is deleted survives the filter and appears in the
result carrying status deleted — so the result is not free of entries with a
terminal deleted/not_found status. -/
theorem C7_counterexample :
    list_vector_store_files oC7 2 =
      [{ id := "f1", filename := "a.txt", status := "deleted",
         created_at := some 5, bytes := 12 }] ∧
    ({ id := "f1", filename := "a.txt", status := "deleted",
       created_at := some 5, bytes := 12 } : OutFile).status = "deleted" := by
  constructor
  · unfold list_vector_store_files
    rw [show listLoop oC7 2 none [] =
        [{ id := "f1", filename := "a.txt", status := "deleted",
           created_at := some 5, bytes := 12 }] from by decide]
    rw [List.mergeSort_singleton]
  · rfl

/-- C7 (amended): the returned listing is sorted ascending by filename, and
every returned entry comes from a surviving page entry: its metadata lookup
succeeded, and if the entry carried a truthy listing status then that status
does not lower to deleted or not_found and is returned unchanged. (An entry
with an absent or empty listing status falls back to the metadata status,
which can itself be deleted or not_found.) -/
theorem C7_listing (o : ListOracle) (fuel : Nat) :
    List.Pairwise (fun a b : OutFile => a.filename ≤ b.filename)
      (list_vector_store_files o fuel) ∧
    ∀ x ∈ list_vector_store_files o fuel, ∃ e : VSFileEntry,
      processEntry o.retrieve e = some x ∧
      (o.retrieve e.id).isSome = true ∧
      (∀ s, strTruthy e.status = some s →
        lowerStr s ≠ "deleted" ∧ lowerStr s ≠ "not_found" ∧ x.status = s) := by
  constructor
  · unfold list_vector_store_files
    have hs := @List.sorted_mergeSort OutFile
      (fun a b : OutFile => decide (a.filename ≤ b.filename))
      (fun a b c hab hbc => by
        rw [decide_eq_true_eq] at *
        exact le_trans hab hbc)
      (fun a b => by
        rw [Bool.or_eq_true, decide_eq_true_eq, decide_eq_true_eq]
        exact le_total _ _)
      (listLoop o fuel none [])
    exact hs.imp (fun h => of_decide_eq_true h)
  · intro x hx
    unfold list_vector_store_files at hx
    rw [List.mem_mergeSort] at hx
    rcases listLoop_mem o fuel none [] x hx with hx2 | ⟨e, he⟩
    · cases hx2
    · obtain ⟨h1, h2⟩ := processEntry_some o.retrieve e x he
      exact ⟨e, he, h1, h2⟩

/-- C7 witness: the single completed entry of a concrete listing. -/
theorem C7_listing_witness :
    ∃ e : VSFileEntry,
      processEntry oC7w.retrieve e =
        some { id := "f3", filename := "a.txt", status := "completed",
               created_at := none, bytes := 3 } ∧
      (oC7w.retrieve e.id).isSome = true ∧
      (∀ s, strTruthy e.status = some s →
        lowerStr s ≠ "deleted" ∧ lowerStr s ≠ "not_found" ∧
        ({ id := "f3", filename := "a.txt", status := "completed",
           created_at := none, bytes := 3 } : OutFile).status = s) :=
  (C7_listing oC7w 1).2
    { id := "f3", filename := "a.txt", status := "completed",
      created_at := none, bytes := 3 }
    (by
      unfold list_vector_store_files
      rw [show listLoop oC7w 1 none [] =
          [{ id := "f3", filename := "a.txt", status := "completed",
             created_at := none, bytes := 3 }] from by decide]
      rw [List.mergeSort_singleton]
      exact List.mem_singleton.mpr rfl)
